import Mathlib

/-!
Verification development for the infohub-osint repository.

The JavaScript sources are shallowly embedded as executable Lean functions.
Strings are handled as `List Char` (wrapped into `String` at the interfaces),
machine numbers as `Nat`, asynchronous I/O (HTTP requests, DNS resolution,
`Math.random()` draws) as explicit oracle/environment records passed to the
functions, and fallible lookups as `Option`.  Outbound probes are tracked by
returning, next to the result list, the list of probe calls that the code
issues, so that statements such as "no probe is dispatched" or "exactly one
MX lookup is performed" are expressible.
-/

namespace InfoHub

/-- Code point of a character, used for all character-class tests so that the
regex character classes of the JavaScript sources translate into plain
arithmetic comparisons. -/
def cp (c : Char) : Nat := c.toNat

/-- Character class of the JavaScript regex `\s` (also the set trimmed by
`String.prototype.trim`): space, tab, line terminators, NBSP, Unicode space
separators, and the BOM. -/
def jsWhitespace (c : Char) : Bool :=
  cp c = 32 || cp c = 9 || cp c = 10 || cp c = 11 || cp c = 12 || cp c = 13 ||
  cp c = 0xa0 || cp c = 0x1680 || (0x2000 ≤ cp c && cp c ≤ 0x200a) ||
  cp c = 0x2028 || cp c = 0x2029 || cp c = 0x202f || cp c = 0x205f ||
  cp c = 0x3000 || cp c = 0xfeff

/-- Left trim: drop leading JS whitespace. -/
def trimLeftL (l : List Char) : List Char := l.dropWhile jsWhitespace

/-- JavaScript `String.prototype.trim`: drop JS whitespace from both ends. -/
def jsTrimL (l : List Char) : List Char :=
  ((trimLeftL l).reverse.dropWhile jsWhitespace).reverse

/-- String-level wrapper of `jsTrimL`, the model of JS `q.trim()`. -/
def jsTrimS (s : String) : String := ⟨jsTrimL s.data⟩

/-- Splitting a character list at every occurrence of a separator, the model
of JavaScript `str.split(sep)` for a one-character separator: always returns
at least one (possibly empty) part. -/
def splitSep (sep : Char) : List Char → List (List Char)
  | [] => [[]]
  | c :: rest =>
    match splitSep sep rest with
    | [] => if c = sep then [[], []] else [[c]]
    | p :: ps => if c = sep then [] :: p :: ps else (c :: p) :: ps

theorem splitSep_ne_nil (sep : Char) (l : List Char) : splitSep sep l ≠ [] := by
  cases l with
  | nil => simp [splitSep]
  | cons c rest =>
    cases hr : splitSep sep rest with
    | nil =>
      simp only [splitSep, hr]
      by_cases hc : c = sep <;> simp [hc]
    | cons p ps =>
      simp only [splitSep, hr]
      by_cases hc : c = sep <;> simp [hc]

theorem mem_of_mem_splitSep {sep : Char} {l : List Char} {p : List Char}
    (hp : p ∈ splitSep sep l) {c : Char} (hc : c ∈ p) : c ∈ l := by
  induction l generalizing p with
  | nil =>
    simp [splitSep] at hp
    subst hp
    exact absurd hc (List.not_mem_nil c)
  | cons a rest ih =>
    cases hr : splitSep sep rest with
    | nil => exact absurd hr (splitSep_ne_nil sep rest)
    | cons q qs =>
      have hqmem : q ∈ splitSep sep rest := by
        rw [hr]; exact List.mem_cons_self q qs
      have hp2 : p ∈ (if a = sep then [] :: q :: qs else (a :: q) :: qs) := by
        have := hp
        simp only [splitSep, hr] at this
        exact this
      by_cases ha : a = sep
      · rw [if_pos ha] at hp2
        rcases List.mem_cons.mp hp2 with h1 | h2
        · subst h1; exact absurd hc (List.not_mem_nil c)
        · refine List.mem_cons_of_mem a (ih ?_ hc)
          rw [hr]; exact h2
      · rw [if_neg ha] at hp2
        rcases List.mem_cons.mp hp2 with h1 | h2
        · subst h1
          rcases List.mem_cons.mp hc with hca | hcq
          · exact hca ▸ List.mem_cons_self a rest
          · exact List.mem_cons_of_mem a (ih hqmem hcq)
        · refine List.mem_cons_of_mem a (ih ?_ hc)
          rw [hr]; exact List.mem_cons_of_mem q h2

theorem exists_part_of_mem {sep c : Char} {l : List Char}
    (hc : c ∈ l) (hne : c ≠ sep) : ∃ p ∈ splitSep sep l, c ∈ p := by
  induction l with
  | nil => exact absurd hc (List.not_mem_nil c)
  | cons a rest ih =>
    cases hr : splitSep sep rest with
    | nil => exact absurd hr (splitSep_ne_nil sep rest)
    | cons q qs =>
      simp only [splitSep, hr]
      by_cases ha : a = sep
      · simp only [if_pos ha]
        rcases List.mem_cons.mp hc with hceq | hcl
        · exact absurd (hceq.trans ha) hne
        · rcases ih hcl with ⟨p, hp, hcp⟩
          rw [hr] at hp
          exact ⟨p, List.mem_cons_of_mem [] hp, hcp⟩
      · simp only [if_neg ha]
        rcases List.mem_cons.mp hc with hceq | hcl
        · exact ⟨a :: q, List.mem_cons_self _ _, hceq ▸ List.mem_cons_self a q⟩
        · rcases ih hcl with ⟨p, hp, hcp⟩
          rw [hr] at hp
          rcases List.mem_cons.mp hp with hpq | hpqs
          · exact ⟨a :: q, List.mem_cons_self _ _, hpq ▸ List.mem_cons_of_mem a hcp⟩
          · exact ⟨p, List.mem_cons_of_mem _ hpqs, hcp⟩

theorem splitSep_eq_single {sep : Char} {l : List Char} (h : sep ∉ l) :
    splitSep sep l = [l] := by
  induction l with
  | nil => rfl
  | cons a rest ih =>
    have ha : a ≠ sep := fun heq => h (heq ▸ List.mem_cons_self a rest)
    have hrest : sep ∉ rest := fun hm => h (List.mem_cons_of_mem a hm)
    simp only [splitSep, ih hrest, if_neg ha]

theorem sep_mem_of_splitSep_length {sep : Char} {l : List Char}
    (h : 2 ≤ (splitSep sep l).length) : sep ∈ l := by
  by_contra hns
  rw [splitSep_eq_single hns] at h
  simp at h

/-- JavaScript `str.includes(c)` for a single character. -/
def jsIncludes (l : List Char) (c : Char) : Bool := l.any fun d => d = c

/-- Matching on whether a list starts with a given pattern. -/
def matchesAt : List Char → List Char → Bool
  | [], _ => true
  | _ :: _, [] => false
  | a :: as, b :: bs => a = b && matchesAt as bs

/-- Substring test (JavaScript `includes` for strings, and the substring
regexes used by the code). -/
def containsSub (needle : List Char) : List Char → Bool
  | [] => matchesAt needle []
  | c :: rest => matchesAt needle (c :: rest) || containsSub needle rest

/-- Case-insensitive substring test against a lowercase pattern, the model of
`/(...)/i.test(s)` for alternation-of-words patterns. -/
def containsCI (s : String) (pat : String) : Bool :=
  containsSub pat.data (s.data.map Char.toLower)


/-!
Models of the functions of the npm `validator` library (version 13.x, default
options) that the repository calls: `isEmail`, `isFQDN` and `escape`.  These
are translated from the library's source; the Unicode ranges of its regex
character classes are kept as code-point ranges.
-/

/-- Character class `[a-z...]` of the TLD alternative in the `isFQDN` regex
`/^([a-z¡-¨ª-퟿豈-﷏ﷰ-￯]{2,}|xn[a-z0-9-]{2,})$/i`
(ASCII letters in both cases for the `i` flag, plus the Unicode ranges). -/
def tldChar (c : Char) : Bool :=
  (97 ≤ cp c && cp c ≤ 122) || (65 ≤ cp c && cp c ≤ 90) ||
  (0xA1 ≤ cp c && cp c ≤ 0xA8) || (0xAA ≤ cp c && cp c ≤ 0xD7FF) ||
  (0xF900 ≤ cp c && cp c ≤ 0xFDCF) || (0xFDF0 ≤ cp c && cp c ≤ 0xFFEF)

/-- Character class `[a-z0-9-]` under the `i` flag, used in the `xn...` TLD
alternative of `isFQDN`. -/
def xnChar (c : Char) : Bool :=
  (97 ≤ cp c && cp c ≤ 122) || (65 ≤ cp c && cp c ≤ 90) ||
  (48 ≤ cp c && cp c ≤ 57) || cp c = 45

/-- TLD test of `isFQDN` with `allow_numeric_tld: false`: either at least two
characters of the TLD letter class, or `xn` followed by at least two
characters of `[a-z0-9-]` (case-insensitively). -/
def tldOk (tld : List Char) : Bool :=
  (2 ≤ tld.length && tld.all tldChar) ||
  (match tld with
   | x :: n :: rest =>
     (cp x = 120 || cp x = 88) && (cp n = 110 || cp n = 78) &&
     (2 ≤ rest.length && rest.all xnChar)
   | _ => false)

/-- Character class of a domain label in `isFQDN`:
`/^[a-z_¡-¨ª-퟿豈-﷏ﷰ-￯0-9-]+$/i`. -/
def fqdnPartChar (c : Char) : Bool :=
  (97 ≤ cp c && cp c ≤ 122) || (65 ≤ cp c && cp c ≤ 90) ||
  (48 ≤ cp c && cp c ≤ 57) || cp c = 95 || cp c = 45 ||
  (0xA1 ≤ cp c && cp c ≤ 0xA8) || (0xAA ≤ cp c && cp c ≤ 0xD7FF) ||
  (0xF900 ≤ cp c && cp c ≤ 0xFDCF) || (0xFDF0 ≤ cp c && cp c ≤ 0xFFEF)

/-- Full-width character test `/[！-～]/` (labels containing these are
rejected by `isFQDN`). -/
def fullWidthChar (c : Char) : Bool := 0xFF01 ≤ cp c && cp c ≤ 0xFF5E

/-- Decimal digit character. -/
def digitChar (c : Char) : Bool := 48 ≤ cp c && cp c ≤ 57

/-- Per-label checks of `isFQDN` with default options (`allow_underscores:
false`): at most 63 characters, nonempty and inside the label class, no
full-width characters, no leading or trailing hyphen, no underscore. -/
def fqdnPartOk (part : List Char) : Bool :=
  part.length ≤ 63 &&
  (!part.isEmpty && part.all fqdnPartChar) &&
  !part.any fullWidthChar &&
  !(part.head? = some (Char.ofNat 45)) && !(part.getLast? = some (Char.ofNat 45)) &&
  !jsIncludes part (Char.ofNat 95)

/-- Model of `validator.isFQDN` with default options (`require_tld: true`,
`allow_underscores: false`, `allow_trailing_dot: false`, `allow_numeric_tld:
false`, `allow_wildcard: false`), on the character list of the string. -/
def isFQDNL (l : List Char) : Bool :=
  let parts := splitSep (Char.ofNat 46) l
  let tld := parts.getLastD []
  if parts.length < 2 then false
  else if !tldOk tld then false
  else if tld.any jsWhitespace then false
  else if !tld.isEmpty && tld.all digitChar then false
  else parts.all fqdnPartOk

/-- String-level `validator.isFQDN`. -/
def isFQDN (s : String) : Bool := isFQDNL s.data

/-- Character class of an unquoted local-part label of `isEmail` with
`allow_utf8_local_part: true`:
`/^[a-z\d!#\$%&'\*\+\-\/=\?\^_\x60\x7b\x7c\x7d~¡-￿]+$/i`. -/
def emailUserChar (c : Char) : Bool :=
  (97 ≤ cp c && cp c ≤ 122) || (65 ≤ cp c && cp c ≤ 90) ||
  (48 ≤ cp c && cp c ≤ 57) ||
  cp c = 33 || cp c = 35 || cp c = 36 || cp c = 37 || cp c = 38 || cp c = 39 ||
  cp c = 42 || cp c = 43 || cp c = 45 || cp c = 47 || cp c = 61 || cp c = 63 ||
  cp c = 94 || cp c = 95 || cp c = 96 || cp c = 123 || cp c = 124 ||
  cp c = 125 || cp c = 126 ||
  (0xA1 ≤ cp c && cp c ≤ 0xFFFF)

/-- Plain-character class of the quoted local-part regex of `isEmail`
(everything printable except backslash and the double quote, plus whitespace,
controls and the Unicode range). -/
def quotedPlainChar (c : Char) : Bool :=
  jsWhitespace c ||
  (0x01 ≤ cp c && cp c ≤ 0x08) || cp c = 0x0b || cp c = 0x0c ||
  (0x0e ≤ cp c && cp c ≤ 0x1f) || cp c = 0x7f || cp c = 0x21 ||
  (0x23 ≤ cp c && cp c ≤ 0x5b) || (0x5d ≤ cp c && cp c ≤ 0x7e) ||
  (0xA1 ≤ cp c && cp c ≤ 0xFFFF)

/-- Character allowed after a backslash escape in the quoted local-part regex
of `isEmail`. -/
def quotedEscChar (c : Char) : Bool :=
  (0x01 ≤ cp c && cp c ≤ 0x09) || cp c = 0x0b || cp c = 0x0c ||
  (0x0d ≤ cp c && cp c ≤ 0x7f) || (0xA1 ≤ cp c && cp c ≤ 0xFFFF)

/-- Quoted local-part test of `isEmail` (the regex `quotedEmailUserUtf8`):
a sequence of plain characters or backslash-escaped characters. -/
def quotedUserOk : List Char → Bool
  | [] => true
  | [c] => cp c ≠ 92 && quotedPlainChar c
  | c :: d :: rest =>
    if cp c = 92 then quotedEscChar d && quotedUserOk rest
    else quotedPlainChar c && quotedUserOk (d :: rest)

/-- Unquoted local-part test of `isEmail`: every dot-separated label is
nonempty and inside the local-part character class. -/
def emailUserPartsOk (user : List Char) : Bool :=
  (splitSep (Char.ofNat 46) user).all fun p => !p.isEmpty && p.all emailUserChar

/-- Model of `validator.isEmail` with default options (no display name, UTF-8
local part allowed, `require_tld: true`, max lengths enforced, no IP domain,
no blacklist): at most 254 characters in total, the part after the last `@`
is an FQDN of at most 254 characters, and the part before it is a valid
quoted or unquoted local part of at most 64 characters. -/
def isEmailL (l : List Char) : Bool :=
  if 254 < l.length then false
  else
    let parts := splitSep (Char.ofNat 64) l
    let domain := parts.getLastD []
    let user := List.intercalate [Char.ofNat 64] parts.dropLast
    if 64 < user.length || 254 < domain.length then false
    else if !isFQDNL domain then false
    else if user.head? = some (Char.ofNat 34) then quotedUserOk ((user.drop 1).dropLast)
    else emailUserPartsOk user

/-- String-level `validator.isEmail`. -/
def isEmail (s : String) : Bool := isEmailL s.data

/-- Per-character expansion of `validator.escape`: the characters
`& " ' < > / \` and the backtick (code 96) are replaced by their HTML
entities, every other character is kept. -/
def escapeChar (c : Char) : List Char :=
  if cp c = 38 then "&amp;".data
  else if cp c = 34 then "&quot;".data
  else if cp c = 39 then "&#x27;".data
  else if cp c = 60 then "&lt;".data
  else if cp c = 62 then "&gt;".data
  else if cp c = 47 then "&#x2F;".data
  else if cp c = 92 then "&#x5C;".data
  else if cp c = 96 then "&#96;".data
  else [c]

/-- Model of `validator.escape` on a character list. -/
def escapeL (l : List Char) : List Char := l.flatMap escapeChar

/-- String-level `validator.escape`. -/
def jsEscape (s : String) : String := ⟨escapeL s.data⟩

/-!
Embedding of `src/api/index.js`: validation, query-type detection,
sanitization and the search dispatchers behind `POST /search`.
-/

/-- Character class of the validation regex in `validateSearchQuery`
(src/api/index.js line 58): `/^[a-zA-Z0-9@._\-+\s()]+$/`. -/
def allowedQueryChar (c : Char) : Bool :=
  (97 ≤ cp c && cp c ≤ 122) || (65 ≤ cp c && cp c ≤ 90) ||
  (48 ≤ cp c && cp c ≤ 57) ||
  cp c = 64 || cp c = 46 || cp c = 95 || cp c = 45 || cp c = 43 ||
  cp c = 40 || cp c = 41 || jsWhitespace c

/-- Outcome of `validateSearchQuery`: either `{valid: false, error}` or
`{valid: true, query: trimmed}`. -/
inductive ValidationOutcome where
  | invalid (error : String)
  | ok (query : String)
deriving DecidableEq, Repr

/-- Model of `validateSearchQuery` (src/api/index.js lines 43-63).  The
argument is `none` when `req.body.query` is absent or not a string; the empty
string is falsy in JavaScript and yields the same error. -/
def validateSearchQuery (query : Option String) : ValidationOutcome :=
  match query with
  | none => .invalid "Query must be a string"
  | some q =>
    if q = "" then .invalid "Query must be a string"
    else
      let trimmed := jsTrimS q
      if trimmed.length < 2 then .invalid "Query too short (minimum 2 characters)"
      else if 100 < trimmed.length then .invalid "Query too long (maximum 100 characters)"
      else if !trimmed.data.all allowedQueryChar then .invalid "Invalid characters detected"
      else .ok trimmed

/-- Bitcoin alternative of the crypto regex (src/api/index.js line 68):
`^[13][a-km-zA-HJ-NP-Z1-9]{25,34}$`. -/
def base58Char (c : Char) : Bool :=
  (97 ≤ cp c && cp c ≤ 107) || (109 ≤ cp c && cp c ≤ 122) ||
  (65 ≤ cp c && cp c ≤ 72) || (74 ≤ cp c && cp c ≤ 78) ||
  (80 ≤ cp c && cp c ≤ 90) || (49 ≤ cp c && cp c ≤ 57)

/-- Hexadecimal digit of the Ethereum alternative `^0x[a-fA-F0-9]{40}$`. -/
def hexChar (c : Char) : Bool :=
  (97 ≤ cp c && cp c ≤ 102) || (65 ≤ cp c && cp c ≤ 70) ||
  (48 ≤ cp c && cp c ≤ 57)

/-- The crypto-address regex of `detectQueryType` and `searchCrypto`:
a base58 Bitcoin address (leading `1`/`3`, 26-35 characters in total) or an
Ethereum address (`0x` plus 40 hex digits). -/
def cryptoPattern (s : String) : Bool :=
  (match s.data with
   | c :: rest =>
     (cp c = 49 || cp c = 51) && 25 ≤ rest.length && rest.length ≤ 34 &&
     rest.all base58Char
   | [] => false) ||
  (match s.data with
   | z :: x :: rest => cp z = 48 && cp x = 120 && rest.length = 40 && rest.all hexChar
   | _ => false)

/-- Model of `detectQueryType` (src/api/index.js lines 65-70): email check,
then FQDN check, then crypto-address regex, default `social`.  There is no
branch returning `phone`. -/
def detectQueryType (query : String) : String :=
  if isEmail query then "email"
  else if isFQDN query then "domain"
  else if cryptoPattern query then "crypto"
  else "social"

/-- Model of `sanitizeInput` (src/api/index.js lines 72-74):
`validator.escape(input.trim())`. -/
def sanitizeInput (input : String) : String := jsEscape (jsTrimS input)

/-- Normalized probe record `{platform, status, data, url}` (spec §3). -/
structure ProbeResult where
  platform : String
  status : String
  data : String
  url : Option String
deriving DecidableEq, Repr

/-- Identity of an outbound probe issued by a dispatcher, used to state
whether and which network calls a code path performs. -/
inductive ProbeCall where
  | githubUser (username : String)
  | urlCheck (url : String)
  | dnsMx (domain : String)
  | dnsA (domain : String)
  | dnsTxt (domain : String)
deriving DecidableEq, Repr

/-- Outcome of the GitHub users API call as observed by `searchGitHub`:
either a failure (network error, timeout, non-JSON body or missing `login`)
or a profile with the fields the code reads. -/
inductive GitHubOutcome where
  | err
  | found (name : Option String) (publicRepos followers year : Nat) (htmlUrl : String)
deriving DecidableEq, Repr

/-- Oracles for the I/O and randomness of src/api/index.js: the GitHub call
outcome and the `Math.random() > 0.5` draw per simulated platform. -/
structure ApiEnv where
  github : GitHubOutcome
  simulatedExists : String → Bool

/-- Model of the api `searchGitHub` (src/api/index.js lines 110-125): on
failure an error record, on success a summary record.  The data string keeps
the source's shape with the numeric fields rendered by `toString`. -/
def apiSearchGitHub (env : ApiEnv) : ProbeResult :=
  match env.github with
  | .err => ⟨"GitHub", "error", "Perfil não encontrado", none⟩
  | .found name repos followers year url =>
    ⟨"GitHub", "success",
      "Nome: " ++ name.getD "N/A" ++ " | Repos: " ++ toString repos ++
      " | Seguidores: " ++ toString followers ++ " | Criado: " ++ toString year,
      some url⟩

/-- Model of the api `searchSocialMedia` (src/api/index.js lines 128-153):
one real GitHub probe followed by four simulated platforms whose existence is
a random draw.  The second component is the list of outbound probes issued. -/
def apiSearchSocialMedia (username : String) (env : ApiEnv) :
    List ProbeResult × List ProbeCall :=
  (⟨"GitHub", (apiSearchGitHub env).status, (apiSearchGitHub env).data,
     (apiSearchGitHub env).url⟩ ::
    (["Instagram", "LinkedIn", "YouTube", "Twitch"].map fun platform =>
      ⟨platform,
       if env.simulatedExists platform then "success" else "error",
       if env.simulatedExists platform then "Perfil encontrado" else "Perfil não encontrado",
       if env.simulatedExists platform then
         some ("https://" ++ platform.toLower ++ ".com/" ++ username)
       else none⟩),
   [ProbeCall.githubUser username])

/-- The provider table of the api `searchEmail` (src/api/index.js lines
169-174). -/
def apiEmailProvider (domain : String) : Option String :=
  if domain = "gmail.com" then some "Google"
  else if domain = "yahoo.com" then some "Yahoo"
  else if domain = "outlook.com" then some "Microsoft"
  else if domain = "hotmail.com" then some "Microsoft"
  else none

/-- JavaScript `email.split('@')[1]` (undefined is modeled as the empty
string, which the source only produces for inputs without `@` that it has
already rejected). -/
def emailDomain (email : String) : String :=
  ⟨(splitSep (Char.ofNat 64) email.data).getD 1 []⟩

/-- Model of the api `searchEmail` (src/api/index.js lines 156-184): syntax
check, then a single static provider-heuristic record.  No DNS or HTTP probe
is issued on any path. -/
def apiSearchEmail (email : String) : List ProbeResult × List ProbeCall :=
  if !isEmail email then
    ([⟨"Email Validation", "error", "Invalid email format", none⟩], [])
  else
    let domain := emailDomain email
    ([⟨"Email Intelligence", "success",
        "Provider: " ++ (apiEmailProvider domain).getD domain ++ " | Type: " ++
        (if (apiEmailProvider domain).isSome then "Personal" else "Business"),
        none⟩], [])

/-- Model of the api `searchDomain` (src/api/index.js lines 187-203): FQDN
check, then a single static record.  No DNS probe is issued. -/
def apiSearchDomain (domain : String) : List ProbeResult × List ProbeCall :=
  if !isFQDN domain then
    ([⟨"Domain Validation", "error", "Invalid domain format", none⟩], [])
  else
    ([⟨"DNS Analysis", "success", "Domain: " ++ domain ++ " | Status: Valid", none⟩], [])

/-- Model of the api `searchCrypto` (src/api/index.js lines 206-222). -/
def apiSearchCrypto (address : String) : ProbeResult :=
  if !cryptoPattern address then
    ⟨"Crypto", "error", "Invalid address format", none⟩
  else
    let typ := if matchesAt "0x".data address.data then "Ethereum" else "Bitcoin"
    ⟨"Crypto Analysis", "success", "Type: " ++ typ ++ " | Format: Valid", none⟩

/-- Dispatch switch of the `POST /search` handler (src/api/index.js lines
238-253). -/
def apiDispatch (detectedType : String) (query : String) (env : ApiEnv) :
    List ProbeResult × List ProbeCall :=
  if detectedType = "social" then apiSearchSocialMedia query env
  else if detectedType = "email" then apiSearchEmail query
  else if detectedType = "domain" then apiSearchDomain query
  else if detectedType = "crypto" then ([apiSearchCrypto query], [])
  else apiSearchSocialMedia query env

/-- Response of the `POST /search` handler: a 400 validation error or a 200
JSON envelope (timestamp omitted; it is wall-clock output). -/
inductive ApiResponse where
  | badRequest (error : String)
  | ok (results : List ProbeResult) (query : String) (typ : String)
deriving DecidableEq, Repr

/-- HTTP status code of a response of the model. -/
def respStatus : ApiResponse → Nat
  | .badRequest _ => 400
  | .ok _ _ _ => 200

/-- Model of the `POST /search` handler (src/api/index.js lines 225-267):
validate, sanitize, auto-detect the type unless the body supplies a truthy
one, dispatch, and echo query and type.  The second component is the list of
outbound probes the request caused. -/
def apiPostSearch (query : Option String) (typ : Option String) (env : ApiEnv) :
    ApiResponse × List ProbeCall :=
  match validateSearchQuery query with
  | .invalid e => (.badRequest e, [])
  | .ok validated =>
    let sanitizedQuery := sanitizeInput validated
    let detectedType :=
      match typ with
      | some t => if t = "" then detectQueryType sanitizedQuery else t
      | none => detectQueryType sanitizedQuery
    let dispatched := apiDispatch detectedType sanitizedQuery env
    (.ok dispatched.1 sanitizedQuery detectedType, dispatched.2)

/-!
Embedding of the `src/unnamed/part_001` server: the auto type detection of
`POST /api/search` and `saveSearchHistory`.
-/

/-- JavaScript `phone.replace(/[\s\-\(\)]/g, '')`: strip whitespace, hyphens
and parentheses. -/
def stripPhone (l : List Char) : List Char :=
  l.filter fun c => !(jsWhitespace c || cp c = 45 || cp c = 40 || cp c = 41)

/-- Digit part `[1-9]\d{1,14}` of the E.164-like phone regex. -/
def phoneDigits : List Char → Bool
  | [] => false
  | d :: ds =>
    (49 ≤ cp d && cp d ≤ 57) && 1 ≤ ds.length && ds.length ≤ 14 && ds.all digitChar

/-- The E.164-like phone regex `/^\+?[1-9]\d{1,14}$/`: an optional leading
`+` followed by a nonzero digit and 1 to 14 further digits. -/
def phonePattern (l : List Char) : Bool :=
  match l with
  | [] => false
  | c :: rest => if cp c = 43 then phoneDigits rest else phoneDigits l

/-- Model of the auto type detection of `POST /api/search`
(src/unnamed/part_001 lines 1148-1153): contains `@` means `email` (with no
further validity check), then the E.164 pattern after stripping, then
"contains a dot and no space" means `domain`, default `social`.  There is no
branch returning `crypto`. -/
def autoDetectType (query : String) : String :=
  if jsIncludes query.data (Char.ofNat 64) then "email"
  else if phonePattern (stripPhone query.data) then "phone"
  else if jsIncludes query.data (Char.ofNat 46) && !jsIncludes query.data (Char.ofNat 32)
    then "domain"
  else "social"

/-- Entry of the per-user search history saved by `saveSearchHistory`
(src/unnamed/part_001 lines 464-483): the id comes from `crypto.randomBytes`
and the timestamp from the wall clock, so both are parameters here. -/
structure HistoryEntry where
  id : String
  query : String
  typ : String
  results : Nat
  timestamp : String
  preview : List ProbeResult
deriving DecidableEq, Repr

/-- Model of `saveSearchHistory` for one user's list: a new entry built from
the search (result count and a three-record preview) is prepended with
`unshift`, and `splice(50)` then truncates the list to its first 50 entries. -/
def saveSearchHistory (history : List HistoryEntry) (id query typ timestamp : String)
    (results : List ProbeResult) : List HistoryEntry :=
  let entry : HistoryEntry := ⟨id, query, typ, results.length, timestamp, results.take 3⟩
  let h2 := entry :: history
  if 50 < h2.length then h2.take 50 else h2

/-- Map-level `saveSearchHistory`: the `searchHistory` map keyed by user id,
with absent users holding the empty list. -/
def saveSearchHistoryMap (histories : String → List HistoryEntry) (userId : String)
    (id query typ timestamp : String) (results : List ProbeResult) :
    String → List HistoryEntry :=
  fun u => if u = userId then saveSearchHistory (histories userId) id query typ timestamp results
           else histories u

/-!
Embedding of `src/packages/frontend/server.js`: the URL existence probe and
the social/email/domain dispatchers.
-/

/-- Outcome of one `https.get` existence probe as `checkURLExists` observes
it: a response status code, a network error, or a timeout. -/
inductive UrlOutcome where
  | response (statusCode : Nat)
  | netError
  | timeout
deriving DecidableEq, Repr

/-- Model of `checkURLExists` (src/packages/frontend/server.js lines 109-124,
identically src/unnamed/part_000 lines 108-123): resolves `true` exactly for
status codes 200 and 302, and `false` for every other status code, network
error or timeout. -/
def checkURLExists (outcome : UrlOutcome) : Bool :=
  match outcome with
  | .response statusCode => statusCode = 200 || statusCode = 302
  | .netError => false
  | .timeout => false

/-- Model of `analyzeUsername` (server.js lines 49-66).  The confidence is a
percentage (the source's 0.7/0.85/0.8/0.75 floats scaled by 100, which is how
the only consumer renders them). -/
def analyzeUsername (username : String) : String × Nat :=
  if containsCI username "official" || containsCI username "corp" ||
     containsCI username "company" || containsCI username "inc" ||
     containsCI username "ltd" then ("business", 85)
  else if containsCI username "gamer" || containsCI username "player" ||
     containsCI username "pro" || containsCI username "esports" ||
     containsCI username "gaming" then ("gaming", 80)
  else if containsCI username "dev" || containsCI username "code" ||
     containsCI username "tech" || containsCI username "hack" ||
     containsCI username "cyber" || containsCI username "digital" then ("tech", 75)
  else if containsCI username "art" || containsCI username "design" ||
     containsCI username "photo" || containsCI username "music" ||
     containsCI username "creative" then ("creative", 75)
  else ("personal", 70)

/-- The `Math.random()` draws of the frontend server, one oracle field per
draw site: the Booleans are the threshold comparisons and the Nats stand for
the random counts interpolated into the data strings. -/
structure RandomDraws where
  darkWeb : Bool
  darkCount : Nat
  breach : Bool
  breachCount : Nat
  wallets : Bool
  walletCount : Nat
  cred : Bool
  credCount : Nat
  phoneIntel : Bool
  phoneCount : Nat
  emailPattern : Bool
  emailPatternCount : Nat
  face : Bool
  faceCount : Nat
  emailRiskHigh : Bool
  emailBreach : Bool
  emailBreachCount : Nat
  emailDark : Bool
  emailSocial : Bool
  emailSocialCount : Nat
  emailSpam : Bool
deriving Repr

/-- Oracles for the I/O and randomness of the frontend server: GitHub API
outcome, per-URL existence outcome, DNS `A`/`TXT`/`MX` resolution (`none` is
a rejected promise; TXT resolution is summarized by its record count, the
only thing the code reads), and the random draws. -/
structure ServerEnv where
  github : GitHubOutcome
  urlExists : String → UrlOutcome
  dns4 : String → Option (List String)
  dnsTxt : String → Option Nat
  dnsMx : String → Option (List String)
  rng : RandomDraws

/-- Model of the server `searchGitHub` (server.js lines 127-141). -/
def serverSearchGitHub (env : ServerEnv) : ProbeResult :=
  match env.github with
  | .err => ⟨"GitHub", "error", "Profile not found", none⟩
  | .found name repos followers year url =>
    ⟨"GitHub", "success",
      "Name: " ++ name.getD "N/A" ++ " | Repos: " ++ toString repos ++
      " | Followers: " ++ toString followers ++ " | Created: " ++ toString year,
      some url⟩

/-- The fixed platform list of the server `searchSocialMedia` (server.js
lines 144-153) without the GitHub entry, as platform-name/profile-URL pairs
in declared order. -/
def socialURLPlatforms (username : String) : List (String × String) :=
  [("Twitter", "https://twitter.com/" ++ username),
   ("Instagram", "https://instagram.com/" ++ username),
   ("LinkedIn", "https://linkedin.com/in/" ++ username),
   ("Reddit", "https://reddit.com/user/" ++ username),
   ("YouTube", "https://youtube.com/@" ++ username),
   ("TikTok", "https://tiktok.com/@" ++ username),
   ("Facebook", "https://facebook.com/" ++ username)]

/-- One URL-existence probe record of the server `searchSocialMedia`
(server.js lines 170-178). -/
def urlCheckRecord (env : ServerEnv) (p : String × String) : ProbeResult :=
  ⟨p.1,
   if checkURLExists (env.urlExists p.2) then "success" else "error",
   if checkURLExists (env.urlExists p.2) then "Profile found" else "Profile not found",
   if checkURLExists (env.urlExists p.2) then some p.2 else none⟩

/-- Model of `searchDeepWeb` (server.js lines 187-254): seven simulated
records in fixed order, whose statuses and counts come from random draws. -/
def serverSearchDeepWeb (rng : RandomDraws) : List ProbeResult :=
  [⟨"🕸️ Dark Web Forums", if rng.darkWeb then "warning" else "success",
     if rng.darkWeb then "⚠️ Username found in " ++ toString rng.darkCount ++ " dark web forums"
     else "✓ No dark web activity detected", none⟩,
   ⟨"💀 Data Breach Scanner", if rng.breach then "error" else "success",
     if rng.breach then "🚨 Found in " ++ toString rng.breachCount ++ " data breaches"
     else "✓ No breaches detected", none⟩,
   ⟨"₿ Crypto Wallet Tracker", if rng.wallets then "success" else "warning",
     if rng.wallets then "💰 " ++ toString rng.walletCount ++ " crypto wallets linked"
     else "⚠️ No crypto activity found", none⟩,
   ⟨"🔐 Credential Leaks", if rng.cred then "error" else "success",
     if rng.cred then "🚨 Credentials leaked in " ++ toString rng.credCount ++ " databases"
     else "✓ No credential leaks found", none⟩,
   ⟨"📱 Phone Intelligence", if rng.phoneIntel then "success" else "warning",
     if rng.phoneIntel then "📞 " ++ toString rng.phoneCount ++ " phone numbers associated"
     else "⚠️ No phone data available", none⟩,
   ⟨"📧 Email Pattern Analysis", if rng.emailPattern then "success" else "warning",
     if rng.emailPattern then "✉️ " ++ toString rng.emailPatternCount ++ " email variations detected"
     else "⚠️ Limited email intelligence", none⟩,
   ⟨"👤 Facial Recognition DB", if rng.face then "warning" else "success",
     if rng.face then "📸 Face matched in " ++ toString rng.faceCount ++ " databases"
     else "✓ No facial matches found", none⟩]

/-- Model of the server `searchSocialMedia` (server.js lines 143-185): the AI
analysis record, the GitHub probe, seven sequential URL-existence probes in
declared order, then the seven deep-web records. -/
def serverSearchSocialMedia (username : String) (env : ServerEnv) : List ProbeResult :=
  let analysis := analyzeUsername username
  ⟨"AI Profile Analysis", "success",
    "Profile Type: " ++ analysis.1 ++ " | Confidence: " ++ toString analysis.2 ++
    "% | Risk Level: " ++ (if 80 < analysis.2 then "HIGH" else "MEDIUM"), none⟩ ::
  ⟨"GitHub", (serverSearchGitHub env).status, (serverSearchGitHub env).data,
    (serverSearchGitHub env).url⟩ ::
  ((socialURLPlatforms username).map (urlCheckRecord env) ++ serverSearchDeepWeb env.rng)

/-- Model of the server `searchEmail` (server.js lines 256-329): syntax
check, an intelligence record, exactly one DNS MX lookup whose failure is
recovered into an error record, then four simulated records.  The second
component lists the DNS probes issued. -/
def serverSearchEmail (email : String) (env : ServerEnv) :
    List ProbeResult × List ProbeCall :=
  let domain := emailDomain email
  if !isEmail email then
    ([⟨"Email Validation", "error", "Invalid email format", none⟩], [])
  else
    ([⟨"🧠 Email Intelligence", "success",
        "Provider: " ++ domain ++ " | Type: " ++
        (if containsSub "gmail".data domain.data then "Personal"
         else if containsSub "outlook".data domain.data then "Personal" else "Business") ++
        " | Risk: " ++ (if env.rng.emailRiskHigh then "HIGH" else "LOW"), none⟩,
      (match env.dnsMx domain with
       | some mxs =>
         ⟨"Domain MX Records", "success",
           "Valid domain with " ++ toString mxs.length ++ " MX records: " ++
           String.intercalate ", " mxs, none⟩
       | none => ⟨"Domain Validation", "error", "Invalid domain or no MX records", none⟩),
      ⟨"💀 HaveIBeenPwned", if env.rng.emailBreach then "error" else "success",
        if env.rng.emailBreach then "🚨 Found in " ++ toString env.rng.emailBreachCount ++ " data breaches"
        else "✓ No breaches detected", none⟩,
      ⟨"🕸️ Dark Web Monitoring", if env.rng.emailDark then "warning" else "success",
        if env.rng.emailDark then "⚠️ Email found in dark web marketplaces"
        else "✓ No dark web exposure", none⟩,
      ⟨"🔗 Social Media Linking", if env.rng.emailSocial then "success" else "warning",
        if env.rng.emailSocial then "📱 Linked to " ++ toString env.rng.emailSocialCount ++ " social accounts"
        else "⚠️ Limited social presence", none⟩,
      ⟨"🚫 Spam Database Check", if env.rng.emailSpam then "warning" else "success",
        if env.rng.emailSpam then "⚠️ Email flagged in spam databases"
        else "✓ Clean email reputation", none⟩],
     [ProbeCall.dnsMx domain])

/-- The fixed subdomain candidate list of the server `searchDomain`
(server.js line 368). -/
def subdomainCandidates : List String :=
  ["www", "mail", "ftp", "admin", "api", "blog", "shop", "dev"]

/-- Model of the server `searchDomain` (server.js lines 331-386): an `A`
lookup, a `TXT` lookup and eight subdomain `A` lookups, every failure
recovered locally; always exactly three records (A, TXT, subdomain summary).
A failed `A` lookup yields an `error` record, a failed `TXT` lookup a
`warning` record, and failed subdomain probes are only aggregated. -/
def serverSearchDomain (domain : String) (env : ServerEnv) :
    List ProbeResult × List ProbeCall :=
  let aRecord :=
    match env.dns4 domain with
    | some ips =>
      (⟨"DNS A Records", "success", "IP Addresses: " ++ String.intercalate ", " ips, none⟩ :
        ProbeResult)
    | none => ⟨"DNS A Records", "error", "No A records found", none⟩
  let txtRecord :=
    match env.dnsTxt domain with
    | some n =>
      (⟨"DNS TXT Records", "success", "Found " ++ toString n ++ " TXT records", none⟩ :
        ProbeResult)
    | none => ⟨"DNS TXT Records", "warning", "No TXT records found", none⟩
  let foundSubdomains :=
    subdomainCandidates.filter fun sub => (env.dns4 (sub ++ "." ++ domain)).isSome
  let subRecord : ProbeResult :=
    if foundSubdomains.isEmpty then
      ⟨"Subdomain Enumeration", "warning", "No common subdomains found", none⟩
    else
      ⟨"Subdomain Enumeration", "success",
        "Found subdomains: " ++ String.intercalate ", " foundSubdomains, none⟩
  ([aRecord, txtRecord, subRecord],
   ProbeCall.dnsA domain :: ProbeCall.dnsTxt domain ::
     subdomainCandidates.map fun sub => ProbeCall.dnsA (sub ++ "." ++ domain))

/-!
Embedding of `src/packages/frontend/security.js`: the `SecurityManager`
rate-limit store, IP blacklist and request middleware.
-/

/-- Mutable state of a `SecurityManager`: the per-key request-timestamp store
(`rateLimitStore`, a map with absent keys reading as the empty list) and the
IP blacklist set (membership is all the code uses, so a list models it). -/
structure SecurityState where
  rateLimitStore : String → List Nat
  ipBlacklist : List String

/-- The per-endpoint-class limits of `checkRateLimit` (security.js lines
51-58): `limits[endpoint] || limits.general`. -/
def rateLimitMax (endpoint : String) : Nat :=
  if endpoint = "general" then 30
  else if endpoint = "search" then 10
  else if endpoint = "api" then 100
  else 30

/-- Model of `SecurityManager.checkRateLimit` (security.js lines 48-75):
filter the stored timestamps to the one-minute window; at or above the limit
the IP is added to the blacklist and `false` is returned without touching the
store; below it the current time is appended and `true` is returned.
`now - time < windowMs` is vacuously true for future timestamps in JavaScript
and under truncated Nat subtraction alike. -/
def checkRateLimit (st : SecurityState) (ip endpoint : String) (now : Nat) :
    Bool × SecurityState :=
  let key := ip ++ ":" ++ endpoint
  let maxRequests := rateLimitMax endpoint
  let recentRequests := (st.rateLimitStore key).filter fun time => now - time < 60000
  if maxRequests ≤ recentRequests.length then
    (false, { st with ipBlacklist := ip :: st.ipBlacklist })
  else
    (true,
     { st with rateLimitStore :=
        fun k => if k = key then recentRequests ++ [now] else st.rateLimitStore k })

/-- The blocked user-agent patterns of `SecurityManager` (security.js lines
13-17): substring tests, case-insensitive. -/
def blockedUserAgent (ua : String) : Bool :=
  containsCI ua "bot" || containsCI ua "crawler" || containsCI ua "spider" ||
  containsCI ua "scraper" || containsCI ua "curl" || containsCI ua "wget" ||
  containsCI ua "python-requests" || containsCI ua "nikto" || containsCI ua "sqlmap" ||
  containsCI ua "nmap" || containsCI ua "masscan"

/-- Model of `SecurityManager.isBlocked` (security.js lines 77-85). -/
def isBlocked (st : SecurityState) (ip ua : String) : Bool :=
  st.ipBlacklist.contains ip || blockedUserAgent ua

/-- An incoming request as the security middleware sees it. -/
structure MwRequest where
  ip : String
  userAgent : String
  path : String
  now : Nat
deriving DecidableEq, Repr

/-- Outcome of the security middleware for one request: HTTP 403, HTTP 429,
or control passed to the route handler. -/
inductive MwOutcome where
  | accessDenied
  | rateLimited
  | passed
deriving DecidableEq, Repr

/-- HTTP status of a middleware outcome (`passed` means the request proceeds;
its eventual status is the route's). -/
def mwStatus : MwOutcome → Nat
  | .accessDenied => 403
  | .rateLimited => 429
  | .passed => 200

/-- The endpoint classification of `SecurityManager.middleware` (security.js
lines 142-143). -/
def endpointClass (path : String) : String :=
  if matchesAt "/api/".data path.data then "api"
  else if matchesAt "/search".data path.data then "search"
  else "general"

/-- Model of `SecurityManager.middleware` (security.js lines 130-158):
blocked IPs and user agents get 403 before any rate-limit bookkeeping;
otherwise the rate limiter decides between 429 and passing the request on. -/
def securityMiddleware (st : SecurityState) (r : MwRequest) :
    MwOutcome × SecurityState :=
  if isBlocked st r.ip r.userAgent then (.accessDenied, st)
  else
    let res := checkRateLimit st r.ip (endpointClass r.path) r.now
    if !res.1 then (.rateLimited, res.2) else (.passed, res.2)

/-- Processing a request sequence through the middleware, collecting each
request with its outcome. -/
def runMiddleware : SecurityState → List MwRequest → List (MwRequest × MwOutcome) × SecurityState
  | st, [] => ([], st)
  | st, r :: rs =>
    let step := securityMiddleware st r
    let rest := runMiddleware step.2 rs
    ((r, step.1) :: rest.1, rest.2)

/-!
Supporting lemmas about trimming, escaping and validation.
-/

theorem mem_dropWhile_of_mem {p : Char → Bool} {l : List Char} {c : Char}
    (hc : c ∈ l) (hp : p c = false) : c ∈ l.dropWhile p := by
  induction l with
  | nil => exact absurd hc (List.not_mem_nil c)
  | cons a rest ih =>
    by_cases ha : p a
    · rw [List.dropWhile_cons_of_pos ha]
      rcases List.mem_cons.mp hc with hca | hcr
      · exact absurd (hca ▸ hp) (by simp [ha])
      · exact ih hcr
    · rw [List.dropWhile_cons_of_neg ha]
      exact hc

theorem mem_jsTrimL_of_mem {l : List Char} {c : Char}
    (hc : c ∈ l) (hw : jsWhitespace c = false) : c ∈ jsTrimL l := by
  unfold jsTrimL trimLeftL
  rw [List.mem_reverse]
  exact mem_dropWhile_of_mem (by rw [List.mem_reverse]; exact mem_dropWhile_of_mem hc hw) hw

theorem dropWhile_idem (p : Char → Bool) (l : List Char) :
    (l.dropWhile p).dropWhile p = l.dropWhile p := by
  induction l with
  | nil => rfl
  | cons a rest ih =>
    by_cases ha : p a
    · rw [List.dropWhile_cons_of_pos ha, ih]
    · rw [List.dropWhile_cons_of_neg ha, List.dropWhile_cons_of_neg ha]

theorem head_neg_of_dropWhile_self {p : Char → Bool} {a : Char} {x : List Char}
    (h : (a :: x).dropWhile p = a :: x) : p a = false := by
  by_cases hpa : p a
  · rw [List.dropWhile_cons_of_pos hpa] at h
    have hlen := congrArg List.length h
    have hle : (x.dropWhile p).length ≤ x.length :=
      ((List.dropWhile_suffix p).sublist).length_le
    simp at hlen
    omega
  · simpa using hpa

theorem jsTrimL_append (l : List Char) :
    jsTrimL l ++ (List.takeWhile jsWhitespace (l.dropWhile jsWhitespace).reverse).reverse =
      l.dropWhile jsWhitespace := by
  unfold jsTrimL trimLeftL
  rw [← List.reverse_append, List.takeWhile_append_dropWhile, List.reverse_reverse]

theorem jsTrimL_left_clean (l : List Char) :
    (jsTrimL l).dropWhile jsWhitespace = jsTrimL l := by
  cases hj : jsTrimL l with
  | nil => rfl
  | cons c t =>
    have hDl := jsTrimL_append l
    rw [hj] at hDl
    have hclean := dropWhile_idem jsWhitespace l
    rw [← hDl] at hclean
    simp only [List.cons_append] at hclean hDl
    have hc := head_neg_of_dropWhile_self hclean
    exact List.dropWhile_cons_of_neg (by simp [hc])

theorem jsTrimL_idem (l : List Char) : jsTrimL (jsTrimL l) = jsTrimL l := by
  conv_lhs => rw [jsTrimL]
  rw [show trimLeftL (jsTrimL l) = jsTrimL l from jsTrimL_left_clean l]
  have h2 : (jsTrimL l).reverse.dropWhile jsWhitespace = (jsTrimL l).reverse := by
    unfold jsTrimL trimLeftL
    rw [List.reverse_reverse]
    exact dropWhile_idem jsWhitespace _
  rw [h2, List.reverse_reverse]

theorem escapeChar_eq_of_allowed {c : Char} (h : allowedQueryChar c = true) :
    escapeChar c = [c] := by
  unfold escapeChar
  have h38 : cp c ≠ 38 := fun he => by simp [allowedQueryChar, jsWhitespace, he] at h
  have h34 : cp c ≠ 34 := fun he => by simp [allowedQueryChar, jsWhitespace, he] at h
  have h39 : cp c ≠ 39 := fun he => by simp [allowedQueryChar, jsWhitespace, he] at h
  have h60 : cp c ≠ 60 := fun he => by simp [allowedQueryChar, jsWhitespace, he] at h
  have h62 : cp c ≠ 62 := fun he => by simp [allowedQueryChar, jsWhitespace, he] at h
  have h47 : cp c ≠ 47 := fun he => by simp [allowedQueryChar, jsWhitespace, he] at h
  have h92 : cp c ≠ 92 := fun he => by simp [allowedQueryChar, jsWhitespace, he] at h
  have h96 : cp c ≠ 96 := fun he => by simp [allowedQueryChar, jsWhitespace, he] at h
  simp [h38, h34, h39, h60, h62, h47, h92, h96]

theorem escapeL_eq_of_allowed {l : List Char} (h : l.all allowedQueryChar = true) :
    escapeL l = l := by
  induction l with
  | nil => rfl
  | cons c rest ih =>
    simp only [List.all_cons, Bool.and_eq_true] at h
    unfold escapeL at ih ⊢
    rw [List.flatMap_cons, escapeChar_eq_of_allowed h.1, ih h.2]
    rfl

theorem validateSearchQuery_ok_inv {q t : String}
    (h : validateSearchQuery (some q) = .ok t) :
    t = jsTrimS q ∧ t.data.all allowedQueryChar = true ∧
      2 ≤ t.length ∧ t.length ≤ 100 := by
  unfold validateSearchQuery at h
  by_cases h0 : q = ""
  · simp [h0] at h
  · simp only [if_neg h0] at h
    by_cases h1 : (jsTrimS q).length < 2
    · simp [h1] at h
    · simp only [if_neg h1] at h
      by_cases h2 : 100 < (jsTrimS q).length
      · simp [h2] at h
      · simp only [if_neg h2] at h
        by_cases h3 : (jsTrimS q).data.all allowedQueryChar
        · simp only [h3, Bool.not_true, Bool.false_eq_true, if_false] at h
          injection h with ht
          subst ht
          exact ⟨rfl, h3, by omega, by omega⟩
        · simp [h3] at h

theorem sanitizeInput_eq_of_ok {q t : String}
    (h : validateSearchQuery (some q) = .ok t) : sanitizeInput t = t := by
  obtain ⟨ht, hall, -, -⟩ := validateSearchQuery_ok_inv h
  unfold sanitizeInput jsEscape jsTrimS
  have htrim : jsTrimL t.data = t.data := by
    rw [ht]
    show jsTrimL (jsTrimS q).data = (jsTrimS q).data
    unfold jsTrimS
    exact jsTrimL_idem q.data
  rw [htrim, escapeL_eq_of_allowed hall]

/-- Every disallowed character is a non-whitespace character and therefore
survives trimming, so its presence anywhere in the raw query forces the
character-class check on the trimmed query to fail. -/
theorem validateSearchQuery_invalid_of_bad {q : String} {c : Char}
    (hc : c ∈ q.data) (hbad : allowedQueryChar c = false) :
    ∃ e, validateSearchQuery (some q) = .invalid e := by
  have hw : jsWhitespace c = false := by
    cases hws : jsWhitespace c with
    | false => rfl
    | true => exact absurd hbad (by simp [allowedQueryChar, hws])
  have hmem : c ∈ (jsTrimS q).data := mem_jsTrimL_of_mem hc hw
  have hfail : (jsTrimS q).data.all allowedQueryChar = false := by
    cases hall : (jsTrimS q).data.all allowedQueryChar with
    | false => rfl
    | true =>
      rw [List.all_eq_true] at hall
      exact absurd (hall c hmem) (by simp [hbad])
  unfold validateSearchQuery
  have h0 : ¬q = "" := by
    intro h0; rw [h0] at hc; exact absurd hc (List.not_mem_nil c)
  simp only [if_neg h0]
  by_cases h1 : (jsTrimS q).length < 2
  · exact ⟨_, by rw [if_pos h1]⟩
  · by_cases h2 : 100 < (jsTrimS q).length
    · exact ⟨_, by rw [if_neg h1, if_pos h2]⟩
    · exact ⟨_, by rw [if_neg h1, if_neg h2, if_pos (by simp [hfail])]⟩

theorem validateSearchQuery_invalid_of_long {q : String}
    (h : 100 < (jsTrimS q).length) :
    ∃ e, validateSearchQuery (some q) = .invalid e := by
  unfold validateSearchQuery
  have h0 : ¬q = "" := by
    intro h0
    rw [h0] at h
    simp [jsTrimS, jsTrimL, trimLeftL] at h
  have h1 : ¬(jsTrimS q).length < 2 := by omega
  simp only [if_neg h0]
  exact ⟨_, by rw [if_neg h1, if_pos h]⟩

/-!
Lemmas about the classifier predicates.
-/

theorem isFQDNL_parts_all {l : List Char} (h : isFQDNL l = true) :
    (splitSep (Char.ofNat 46) l).all fqdnPartOk = true := by
  simp only [isFQDNL] at h
  split_ifs at h
  exact h

theorem isFQDNL_parts_length {l : List Char} (h : isFQDNL l = true) :
    2 ≤ (splitSep (Char.ofNat 46) l).length := by
  simp only [isFQDNL] at h
  split_ifs at h with h1
  omega

theorem isFQDNL_tld_ok {l : List Char} (h : isFQDNL l = true) :
    tldOk ((splitSep (Char.ofNat 46) l).getLastD []) = true ∧
      ((splitSep (Char.ofNat 46) l).getLastD []).any jsWhitespace = false := by
  simp only [isFQDNL] at h
  split_ifs at h with h1 h2 h3 h4
  refine ⟨by simpa using h2, by simpa using h3⟩

theorem not_mem_of_isFQDNL {l : List Char} (h : isFQDNL l = true) {c : Char}
    (hclass : fqdnPartChar c = false) (hdot : c ≠ Char.ofNat 46) : c ∉ l := by
  intro hmem
  obtain ⟨p, hp, hcp⟩ := exists_part_of_mem hmem hdot
  have hall := isFQDNL_parts_all h
  rw [List.all_eq_true] at hall
  have hpok := hall p hp
  unfold fqdnPartOk at hpok
  simp only [Bool.and_eq_true] at hpok
  obtain ⟨⟨⟨⟨⟨hlen63, hne, hchars⟩, hfw⟩, hh⟩, hlast⟩, hu⟩ := hpok
  rw [List.all_eq_true] at hchars
  exact absurd (hchars c hcp) (by simp [hclass])

theorem at_not_mem_of_isFQDNL {l : List Char} (h : isFQDNL l = true) :
    Char.ofNat 64 ∉ l :=
  not_mem_of_isFQDNL h (by decide) (by decide)

theorem space_not_mem_of_isFQDNL {l : List Char} (h : isFQDNL l = true) :
    Char.ofNat 32 ∉ l :=
  not_mem_of_isFQDNL h (by decide) (by decide)

theorem isEmailL_eq_false_of_isFQDNL {l : List Char} (h : isFQDNL l = true) :
    isEmailL l = false := by
  have hat := at_not_mem_of_isFQDNL h
  unfold isEmailL
  by_cases hlen : 254 < l.length
  · simp [hlen]
  · simp only [if_neg hlen]
    rw [splitSep_eq_single hat]
    simp [List.getLastD, List.intercalate, emailUserPartsOk, splitSep, h]

theorem getLastD_mem {α : Type} (l : List α) (d : α) (h : l ≠ []) :
    l.getLastD d ∈ l := by
  induction l generalizing d with
  | nil => exact absurd rfl h
  | cons a rest ih =>
    cases rest with
    | nil => simp [List.getLastD]
    | cons b rs =>
      rw [List.getLastD_cons]
      exact List.mem_cons_of_mem a (ih b (by simp))

theorem phoneDigits_all {ds : List Char} (h : phoneDigits ds = true) :
    ∀ c ∈ ds, digitChar c = true := by
  intro c hc
  cases ds with
  | nil => exact absurd hc (List.not_mem_nil c)
  | cons d rest =>
    unfold phoneDigits at h
    simp only [Bool.and_eq_true, decide_eq_true_eq] at h
    rcases List.mem_cons.mp hc with hcd | hcds
    · subst hcd
      have hd := h.1.1.1
      simp only [digitChar, Bool.and_eq_true, decide_eq_true_eq]
      omega
    · have := h.2
      rw [List.all_eq_true] at this
      exact this c hcds

theorem phonePattern_all {l : List Char} (h : phonePattern l = true) :
    ∀ c ∈ l, cp c = 43 ∨ digitChar c = true := by
  intro c hc
  cases l with
  | nil => exact absurd hc (List.not_mem_nil c)
  | cons a rest =>
    have hred : phonePattern (a :: rest) =
        if cp a = 43 then phoneDigits rest else phoneDigits (a :: rest) := rfl
    rw [hred] at h
    by_cases ha : cp a = 43
    · rw [if_pos ha] at h
      rcases List.mem_cons.mp hc with hca | hcr
      · exact Or.inl (hca ▸ ha)
      · exact Or.inr (phoneDigits_all h c hcr)
    · rw [if_neg ha] at h
      exact Or.inr (phoneDigits_all h c hc)

/-- A valid FQDN contains a character of its TLD that is a letter-class
character: not a digit, not `+`, `-`, `(`, `)`, and not whitespace.  Such a
character survives the phone-stripping replace and falsifies the E.164
pattern. -/
theorem phonePattern_strip_false_of_isFQDNL {l : List Char} (h : isFQDNL l = true) :
    phonePattern (stripPhone l) = false := by
  obtain ⟨htld, hws⟩ := isFQDNL_tld_ok h
  have hne : splitSep (Char.ofNat 46) l ≠ [] := splitSep_ne_nil _ l
  have htldmem : (splitSep (Char.ofNat 46) l).getLastD [] ∈ splitSep (Char.ofNat 46) l :=
    getLastD_mem _ _ hne
  set tld := (splitSep (Char.ofNat 46) l).getLastD [] with htlddef
  have hsurv : ∃ c ∈ tld, (cp c ≠ 43 ∧ digitChar c = false ∧ jsWhitespace c = false ∧
      cp c ≠ 45 ∧ cp c ≠ 40 ∧ cp c ≠ 41) := by
    unfold tldOk at htld
    simp only [Bool.or_eq_true] at htld
    rcases htld with h1 | h2
    · simp only [Bool.and_eq_true] at h1
      obtain ⟨hlen, hall⟩ := h1
      have hlen2 : 2 ≤ tld.length := by simpa using hlen
      cases htl : tld with
      | nil => rw [htl] at hlen2; simp at hlen2
      | cons c rest =>
        refine ⟨c, List.mem_cons_self c rest, ?_⟩
        rw [htl] at hall
        simp only [List.all_cons, Bool.and_eq_true] at hall
        have hc : (97 ≤ cp c ∧ cp c ≤ 122) ∨ (65 ≤ cp c ∧ cp c ≤ 90) ∨
            (0xA1 ≤ cp c ∧ cp c ≤ 0xA8) ∨ (0xAA ≤ cp c ∧ cp c ≤ 0xD7FF) ∨
            (0xF900 ≤ cp c ∧ cp c ≤ 0xFDCF) ∨ (0xFDF0 ≤ cp c ∧ cp c ≤ 0xFFEF) := by
          have := hall.1
          simp only [tldChar, Bool.or_eq_true, Bool.and_eq_true, decide_eq_true_eq] at this
          tauto
        have hwsc : jsWhitespace c = false := by
          rw [htl] at hws
          simp only [List.any_cons, Bool.or_eq_false_iff] at hws
          exact hws.1
        have hdg : digitChar c = false := by
          simp only [digitChar, Bool.and_eq_false_iff, decide_eq_false_iff_not]
          rcases hc with ⟨a, b⟩ | ⟨a, b⟩ | ⟨a, b⟩ | ⟨a, b⟩ | ⟨a, b⟩ | ⟨a, b⟩ <;> omega
        refine ⟨?_, hdg, hwsc, ?_, ?_, ?_⟩ <;>
          (rcases hc with ⟨a, b⟩ | ⟨a, b⟩ | ⟨a, b⟩ | ⟨a, b⟩ | ⟨a, b⟩ | ⟨a, b⟩ <;> omega)
    · cases htl : tld with
      | nil => rw [htl] at h2; simp at h2
      | cons x rest0 =>
        cases rest0 with
        | nil => rw [htl] at h2; simp at h2
        | cons n rest =>
          rw [htl] at h2
          simp only [Bool.and_eq_true] at h2
          have hx : cp x = 120 ∨ cp x = 88 := by
            have := h2.1.1
            simpa [Bool.or_eq_true] using this
          have hwsx : jsWhitespace x = false := by
            rw [htl] at hws
            simp only [List.any_cons, Bool.or_eq_false_iff] at hws
            exact hws.1
          have hdgx : digitChar x = false := by
            simp only [digitChar, Bool.and_eq_false_iff, decide_eq_false_iff_not]
            rcases hx with hx | hx <;> omega
          refine ⟨x, List.mem_cons_self x _, ?_, hdgx, hwsx, ?_, ?_, ?_⟩ <;>
            (rcases hx with hx | hx <;> omega)
  obtain ⟨c, hctld, hcp43, hcd, hcw, hc45, hc40, hc41⟩ := hsurv
  have hcl : c ∈ l := mem_of_mem_splitSep htldmem hctld
  have hcs : c ∈ stripPhone l := by
    unfold stripPhone
    rw [List.mem_filter]
    exact ⟨hcl, by simp [hcw, hc45, hc40, hc41]⟩
  cases hp : phonePattern (stripPhone l) with
  | false => rfl
  | true =>
    rcases phonePattern_all hp c hcs with hc | hc
    · exact absurd hc hcp43
    · exact absurd hc (by simp [hcd])

theorem dot_mem_of_isFQDNL {l : List Char} (h : isFQDNL l = true) :
    Char.ofNat 46 ∈ l :=
  sep_mem_of_splitSep_length (isFQDNL_parts_length h)

theorem jsIncludes_eq_true_iff {l : List Char} {c : Char} :
    jsIncludes l c = true ↔ c ∈ l := by
  simp [jsIncludes, List.any_eq_true]

/-!
Helper lemmas for the history cap and the security middleware.
-/

/-- Arguments of one `saveSearchHistory` call, used to state properties of
arbitrary sequences of saves. -/
structure SaveArgs where
  id : String
  query : String
  typ : String
  timestamp : String
  results : List ProbeResult

/-- Folding a sequence of saves over one user's history list. -/
def runSaves (h : List HistoryEntry) : List SaveArgs → List HistoryEntry
  | [] => h
  | a :: rest => runSaves (saveSearchHistory h a.id a.query a.typ a.timestamp a.results) rest

theorem saveSearchHistory_length_le (h : List HistoryEntry)
    (id query typ ts : String) (rs : List ProbeResult) :
    (saveSearchHistory h id query typ ts rs).length ≤ 50 := by
  unfold saveSearchHistory
  by_cases hl : 50 < (⟨id, query, typ, rs.length, ts, rs.take 3⟩ :: h : List HistoryEntry).length
  · rw [if_pos hl]
    simp [List.length_take]
  · rw [if_neg hl]
    simp only [List.length_cons] at hl ⊢
    omega

theorem checkRateLimit_blacklist_mono (st : SecurityState) (ip endpoint : String)
    (now : Nat) {x : String} (hx : x ∈ st.ipBlacklist) :
    x ∈ (checkRateLimit st ip endpoint now).2.ipBlacklist := by
  unfold checkRateLimit
  by_cases hc : rateLimitMax endpoint ≤
      ((st.rateLimitStore (ip ++ ":" ++ endpoint)).filter fun time => now - time < 60000).length
  · simp only [if_pos hc]
    exact List.mem_cons_of_mem ip hx
  · simp only [if_neg hc]
    exact hx

theorem securityMiddleware_blacklist_mono (st : SecurityState) (r : MwRequest)
    {x : String} (hx : x ∈ st.ipBlacklist) :
    x ∈ (securityMiddleware st r).2.ipBlacklist := by
  unfold securityMiddleware
  by_cases hb : isBlocked st r.ip r.userAgent
  · simp only [if_pos hb]
    exact hx
  · simp only [if_neg hb]
    by_cases hrl : (checkRateLimit st r.ip (endpointClass r.path) r.now).1
    · simp only [hrl, Bool.not_true, Bool.false_eq_true, if_false]
      exact checkRateLimit_blacklist_mono st r.ip _ r.now hx
    · simp only [Bool.not_eq_true] at hrl
      simp only [hrl, Bool.not_false, if_true]
      exact checkRateLimit_blacklist_mono st r.ip _ r.now hx

theorem securityMiddleware_denied_of_mem (st : SecurityState) (r : MwRequest)
    (h : r.ip ∈ st.ipBlacklist) : (securityMiddleware st r).1 = .accessDenied := by
  have hb : isBlocked st r.ip r.userAgent = true := by
    unfold isBlocked
    simp only [List.contains, Bool.or_eq_true, List.elem_eq_mem, decide_eq_true_eq]
    exact Or.inl h
  unfold securityMiddleware
  rw [if_pos hb]

/-!
Concrete environments and inputs used by the claim witnesses.
-/

/-- Random draws fixed to the all-negative outcome. -/
def rng0 : RandomDraws :=
  ⟨false, 0, false, 0, false, 0, false, 0, false, 0, false, 0, false, 0,
   false, false, 0, false, false, 0, false⟩

/-- A frontend-server environment in which every outbound probe fails:
GitHub errors, every URL check hits a network error, and every DNS
resolution rejects. -/
def envSrv0 : ServerEnv :=
  ⟨.err, fun _ => .netError, fun _ => none, fun _ => none, fun _ => none, rng0⟩

/-- Like `envSrv0` but with MX resolution succeeding with one exchanger. -/
def envSrvMx : ServerEnv :=
  { envSrv0 with dnsMx := fun _ => some ["mx1.example.com"] }

/-- An api environment in which the GitHub call fails and every simulated
platform draw is negative. -/
def envApi0 : ApiEnv := ⟨.err, fun _ => false⟩

/-- A 101-character query: one hundred `a` characters followed by a space. -/
def pad101 : String := ⟨List.replicate 100 (Char.ofNat 97) ++ [Char.ofNat 32]⟩

/-- A history entry used in the history-cap witness. -/
def entry0 : HistoryEntry := ⟨"id0", "q", "social", 0, "t0", []⟩

/-- A security state whose store already holds ten timestamps for every key
(the search-endpoint limit), with an empty blacklist. -/
def stRL : SecurityState := ⟨fun _ => List.replicate 10 0, []⟩

/-- A search request arriving inside the rate window of `stRL`. -/
def reqSearch : MwRequest := ⟨"1.2.3.4", "Mozilla/5.0", "/search", 5⟩

/-- A search request from the same IP long after the one-minute window. -/
def reqLater : MwRequest := ⟨"1.2.3.4", "Mozilla/5.0", "/search", 10000000⟩

/-- The security state after `stRL` processes `reqSearch` (which trips the
rate limit and blacklists the IP). -/
def stAfterRL : SecurityState := (securityMiddleware stRL reqSearch).2

/-!
Claim theorems.
-/

/-- C1 (amended): the classifiers' actual decision order, first match wins.
`detectQueryType` (src/api/index.js) tests email, then FQDN, then the
crypto-address regex, defaulting to `social`; it has no phone branch, so no
input is ever classified `phone`.  The `/api/search` auto-detection
(src/unnamed/part_001) tests "contains `@`" (with no email-validity check),
then the E.164 pattern after stripping, then "contains a dot and no space";
it has no crypto branch, so no input is ever classified `crypto` there.
Every standard-email input yields `email` and every FQDN input yields
`domain` under both classifiers. -/
theorem c1_decision_order :
    (∀ q : String, isEmail q = true → detectQueryType q = "email") ∧
    (∀ q : String, isFQDN q = true → detectQueryType q = "domain") ∧
    (∀ q : String, isEmail q = false → isFQDN q = false → cryptoPattern q = true →
      detectQueryType q = "crypto") ∧
    (∀ q : String, isEmail q = false → isFQDN q = false → cryptoPattern q = false →
      detectQueryType q = "social") ∧
    (∀ q : String, detectQueryType q ≠ "phone") ∧
    (∀ q : String, jsIncludes q.data (Char.ofNat 64) = true → autoDetectType q = "email") ∧
    (∀ q : String, jsIncludes q.data (Char.ofNat 64) = false →
      phonePattern (stripPhone q.data) = true → autoDetectType q = "phone") ∧
    (∀ q : String, isFQDN q = true → autoDetectType q = "domain") ∧
    (∀ q : String, autoDetectType q ≠ "crypto") := by
  refine ⟨?_, ?_, ?_, ?_, ?_, ?_, ?_, ?_, ?_⟩
  · intro q h
    simp [detectQueryType, h]
  · intro q h
    have he : isEmail q = false := isEmailL_eq_false_of_isFQDNL h
    simp [detectQueryType, he, h]
  · intro q h1 h2 h3
    simp [detectQueryType, h1, h2, h3]
  · intro q h1 h2 h3
    simp [detectQueryType, h1, h2, h3]
  · intro q
    unfold detectQueryType
    split_ifs <;> decide
  · intro q h
    simp [autoDetectType, h]
  · intro q h1 h2
    simp [autoDetectType, h1, h2]
  · intro q h
    have hat : jsIncludes q.data (Char.ofNat 64) = false := by
      cases hj : jsIncludes q.data (Char.ofNat 64) with
      | false => rfl
      | true => exact absurd (jsIncludes_eq_true_iff.mp hj) (at_not_mem_of_isFQDNL h)
    have hph := phonePattern_strip_false_of_isFQDNL (l := q.data) h
    have hdot : jsIncludes q.data (Char.ofNat 46) = true :=
      jsIncludes_eq_true_iff.mpr (dot_mem_of_isFQDNL h)
    have hsp : jsIncludes q.data (Char.ofNat 32) = false := by
      cases hj : jsIncludes q.data (Char.ofNat 32) with
      | false => rfl
      | true => exact absurd (jsIncludes_eq_true_iff.mp hj) (space_not_mem_of_isFQDNL h)
    simp [autoDetectType, hat, hph, hdot, hsp]
  · intro q
    unfold autoDetectType
    split_ifs <;> decide

/-- C1 counterexample: the claimed uniform five-branch order holds for
neither classifier.  The `/api/search` auto-detection classifies a Bitcoin
address as `social` (it has no crypto branch) and classifies `a@b` as
`email` although `a@b` fails the standard email check, while
`detectQueryType` classifies an E.164 phone number as `social` (it has no
phone branch). -/
theorem c1_decision_order_counterexample :
    autoDetectType "1A1zP1eP5QGefi2DMPTfTL5SLmv7DivfNa" = "social" ∧
    detectQueryType "+15551234567" = "social" ∧
    autoDetectType "a@b" = "email" ∧ isEmail "a@b" = false := by
  decide

/-- C1 witness: the amended decision order evaluated at concrete inputs. -/
theorem c1_decision_order_witness :
    detectQueryType "john@example.com" = "email" ∧
    detectQueryType "example.com" = "domain" ∧
    detectQueryType "0x0123456789abcdef0123456789abcdef01234567" = "crypto" ∧
    autoDetectType "+15551234567" = "phone" ∧
    autoDetectType "example.com" = "domain" :=
  ⟨c1_decision_order.1 "john@example.com" (by decide),
   c1_decision_order.2.1 "example.com" (by decide),
   c1_decision_order.2.2.1 "0x0123456789abcdef0123456789abcdef01234567"
     (by decide) (by decide) (by decide),
   c1_decision_order.2.2.2.2.2.2.1 "+15551234567" (by decide) (by decide),
   c1_decision_order.2.2.2.2.2.2.2.1 "example.com" (by decide)⟩

/-- C3 (amended): the five example classifications as the code computes
them.  Four of the five hold as claimed for `detectQueryType`; the phone
example is classified `social` there, because `detectQueryType` has no phone
branch.  The `/api/search` auto-detection classifies the phone example as
`phone` but the Bitcoin example as `social`. -/
theorem c3_examples :
    detectQueryType "john@example.com" = "email" ∧
    detectQueryType "example.com" = "domain" ∧
    detectQueryType "+15551234567" = "social" ∧
    detectQueryType "1A1zP1eP5QGefi2DMPTfTL5SLmv7DivfNa" = "crypto" ∧
    detectQueryType "johndoe" = "social" ∧
    autoDetectType "+15551234567" = "phone" ∧
    autoDetectType "1A1zP1eP5QGefi2DMPTfTL5SLmv7DivfNa" = "social" := by
  decide

/-- C3 counterexample: `classify("+15551234567")` is not `phone` under
`detectQueryType`, and the Bitcoin example is not `crypto` under the
`/api/search` auto-detection, so no classifier of the code returns the five
claimed values. -/
theorem c3_examples_counterexample :
    detectQueryType "+15551234567" ≠ "phone" ∧
    autoDetectType "1A1zP1eP5QGefi2DMPTfTL5SLmv7DivfNa" ≠ "crypto" := by
  decide

/-- C4 (amended): the search endpoint rejects with HTTP 400, dispatching no
probe, every query whose trimmed form is longer than 100 characters and
every query containing a character outside the allowed set (the length check
runs on the trimmed query, so only the trimmed length matters). -/
theorem c4_validation :
    ∀ (q : String) (typ : Option String) (env : ApiEnv),
      (100 < (jsTrimS q).length ∨ ∃ c ∈ q.data, allowedQueryChar c = false) →
      respStatus (apiPostSearch (some q) typ env).1 = 400 ∧
        (apiPostSearch (some q) typ env).2 = [] := by
  intro q typ env h
  have hinv : ∃ e, validateSearchQuery (some q) = .invalid e := by
    rcases h with h | ⟨c, hc, hbad⟩
    · exact validateSearchQuery_invalid_of_long h
    · exact validateSearchQuery_invalid_of_bad hc hbad
  obtain ⟨e, he⟩ := hinv
  unfold apiPostSearch
  rw [he]
  exact ⟨rfl, rfl⟩

/-- C4 counterexample: a raw query of 101 characters (one hundred `a`
characters and a trailing space) trims to 100 characters, passes validation,
and is dispatched: the response is 200 and a GitHub probe is issued, so the
claim "every query string longer than 100 characters is rejected" fails on
the raw length. -/
theorem c4_validation_counterexample :
    pad101.length = 101 ∧
    respStatus (apiPostSearch (some pad101) none envApi0).1 = 200 ∧
    (apiPostSearch (some pad101) none envApi0).2 ≠ [] := by
  decide

/-- C4 witness: a query containing `<` is rejected with 400 and no probe. -/
theorem c4_validation_witness :
    (100 < (jsTrimS "ab<cd").length ∨ ∃ c ∈ "ab<cd".data, allowedQueryChar c = false) ∧
    respStatus (apiPostSearch (some "ab<cd") none envApi0).1 = 400 ∧
    (apiPostSearch (some "ab<cd") none envApi0).2 = [] :=
  have h : 100 < (jsTrimS "ab<cd").length ∨ ∃ c ∈ "ab<cd".data, allowedQueryChar c = false :=
    Or.inr ⟨Char.ofNat 60, by decide, by decide⟩
  ⟨h, c4_validation "ab<cd" none envApi0 h⟩

/-- C10: on every query accepted by `validateSearchQuery`, `sanitizeInput`
is the identity on the trimmed query, which equals the trim of the raw
query; consequently the whole handler runs type detection and dispatch on
the raw trimmed input and echoes it unchanged as the response's `query`. -/
theorem c10_sanitize_identity :
    ∀ (q t : String) (env : ApiEnv), validateSearchQuery (some q) = .ok t →
      sanitizeInput t = t ∧ t = jsTrimS q ∧
      apiPostSearch (some q) none env =
        (ApiResponse.ok (apiDispatch (detectQueryType t) t env).1 t (detectQueryType t),
         (apiDispatch (detectQueryType t) t env).2) := by
  intro q t env h
  have hsan := sanitizeInput_eq_of_ok h
  have ht := (validateSearchQuery_ok_inv h).1
  refine ⟨hsan, ht, ?_⟩
  unfold apiPostSearch
  rw [h]
  simp only [hsan]

/-- C10 witness: the identity evaluated on a padded email query. -/
theorem c10_sanitize_identity_witness :
    validateSearchQuery (some " john@example.com ") = .ok "john@example.com" ∧
    (sanitizeInput "john@example.com" = "john@example.com" ∧
     ("john@example.com" : String) = jsTrimS " john@example.com " ∧
     apiPostSearch (some " john@example.com ") none envApi0 =
       (ApiResponse.ok (apiDispatch (detectQueryType "john@example.com") "john@example.com" envApi0).1
          "john@example.com" (detectQueryType "john@example.com"),
        (apiDispatch (detectQueryType "john@example.com") "john@example.com" envApi0).2)) :=
  ⟨by decide, c10_sanitize_identity " john@example.com " "john@example.com" envApi0 (by decide)⟩

/-- C2 (amended): single-probe failures never escape the domain dispatcher:
it always returns the complete three-record list; a failed A lookup yields
an `error` record, a failed TXT lookup yields a `warning` record (not
`error`), failed subdomain probes are only aggregated into the summary
record, and a domain query whose A resolution fails still returns a list
containing an `error` record. -/
theorem c2_probe_isolation :
    (∀ (domain : String) (env : ServerEnv), (serverSearchDomain domain env).1.length = 3) ∧
    (∀ (domain : String) (env : ServerEnv), env.dns4 domain = none →
      ((serverSearchDomain domain env).1)[0]? =
        some ⟨"DNS A Records", "error", "No A records found", none⟩) ∧
    (∀ (domain : String) (env : ServerEnv), env.dnsTxt domain = none →
      ((serverSearchDomain domain env).1)[1]? =
        some ⟨"DNS TXT Records", "warning", "No TXT records found", none⟩) ∧
    (∀ (domain : String) (env : ServerEnv), env.dns4 domain = none →
      ∃ r ∈ (serverSearchDomain domain env).1, r.status = "error") := by
  refine ⟨?_, ?_, ?_, ?_⟩
  · intro domain env
    rfl
  · intro domain env h
    simp [serverSearchDomain, h]
  · intro domain env h
    simp [serverSearchDomain, h]
  · intro domain env h
    refine ⟨⟨"DNS A Records", "error", "No A records found", none⟩, ?_, rfl⟩
    simp [serverSearchDomain, h]

/-- C2 counterexample: with every DNS resolution failing, the TXT probe for
`nonexistent-domain-xyz.invalid` fails but its record carries status
`warning`, not `error`, refuting "every single failing probe yields a
ProbeResult with status error". -/
theorem c2_probe_isolation_counterexample :
    ((serverSearchDomain "nonexistent-domain-xyz.invalid" envSrv0).1)[1]? =
      some ⟨"DNS TXT Records", "warning", "No TXT records found", none⟩ ∧
    ("warning" : String) ≠ "error" := by
  decide

/-- C2 witness: the amended behavior at the claimed concrete domain. -/
theorem c2_probe_isolation_witness :
    envSrv0.dns4 "nonexistent-domain-xyz.invalid" = none ∧
    ((serverSearchDomain "nonexistent-domain-xyz.invalid" envSrv0).1)[0]? =
      some ⟨"DNS A Records", "error", "No A records found", none⟩ ∧
    (∃ r ∈ (serverSearchDomain "nonexistent-domain-xyz.invalid" envSrv0).1,
      r.status = "error") :=
  ⟨rfl, c2_probe_isolation.2.1 "nonexistent-domain-xyz.invalid" envSrv0 rfl,
   c2_probe_isolation.2.2.2 "nonexistent-domain-xyz.invalid" envSrv0 rfl⟩

/-- C5 (amended): the frontend server's email dispatcher performs exactly one
DNS MX lookup on the email's domain for every syntactically valid email;
failure yields the `error` record and success the `success` record carrying
the mail-exchanger list.  The api package's email dispatcher
(src/api/index.js `searchEmail`) performs no DNS lookup at all. -/
theorem c5_email_mx :
    (∀ (email : String) (env : ServerEnv), isEmail email = true →
      (serverSearchEmail email env).2 = [ProbeCall.dnsMx (emailDomain email)]) ∧
    (∀ (email : String) (env : ServerEnv), isEmail email = true →
      env.dnsMx (emailDomain email) = none →
      ((serverSearchEmail email env).1)[1]? =
        some ⟨"Domain Validation", "error", "Invalid domain or no MX records", none⟩) ∧
    (∀ (email : String) (env : ServerEnv) (mxs : List String), isEmail email = true →
      env.dnsMx (emailDomain email) = some mxs →
      ((serverSearchEmail email env).1)[1]? =
        some ⟨"Domain MX Records", "success",
          "Valid domain with " ++ toString mxs.length ++ " MX records: " ++
            String.intercalate ", " mxs, none⟩) ∧
    (∀ email : String, (apiSearchEmail email).2 = []) := by
  refine ⟨?_, ?_, ?_, ?_⟩
  · intro email env h
    simp [serverSearchEmail, h]
  · intro email env h hmx
    simp [serverSearchEmail, h, hmx]
  · intro email env mxs h hmx
    simp [serverSearchEmail, h, hmx]
  · intro email
    by_cases h : isEmail email <;> simp [apiSearchEmail, h]

/-- C5 counterexample: the api email dispatcher issues zero DNS MX lookups
for the valid email `john@example.com`, refuting "the dispatcher performs
exactly one DNS MX lookup". -/
theorem c5_email_mx_counterexample :
    isEmail "john@example.com" = true ∧
    (apiSearchEmail "john@example.com").2.length = 0 := by
  decide

/-- C5 witness: the amended behavior at `john@example.com` with failing and
succeeding MX resolution. -/
theorem c5_email_mx_witness :
    isEmail "john@example.com" = true ∧
    (serverSearchEmail "john@example.com" envSrv0).2 =
      [ProbeCall.dnsMx (emailDomain "john@example.com")] ∧
    ((serverSearchEmail "john@example.com" envSrv0).1)[1]? =
      some ⟨"Domain Validation", "error", "Invalid domain or no MX records", none⟩ ∧
    ((serverSearchEmail "john@example.com" envSrvMx).1)[1]? =
      some ⟨"Domain MX Records", "success",
        "Valid domain with " ++ toString (["mx1.example.com"] : List String).length ++
          " MX records: " ++ String.intercalate ", " ["mx1.example.com"], none⟩ :=
  ⟨by decide,
   c5_email_mx.1 "john@example.com" envSrv0 (by decide),
   c5_email_mx.2.1 "john@example.com" envSrv0 (by decide) rfl,
   c5_email_mx.2.2.1 "john@example.com" envSrvMx ["mx1.example.com"] (by decide) rfl⟩

/-- C6 (amended): a social existence probe treats exactly the status codes
200 and 302 as "exists" (not 301 or 303); every other status code, network
error or timeout is treated as not existing and yields an `error`-status
record for that platform in the dispatcher. -/
theorem c6_url_exists :
    (∀ s : Nat, checkURLExists (.response s) = true ↔ (s = 200 ∨ s = 302)) ∧
    checkURLExists .netError = false ∧
    checkURLExists .timeout = false ∧
    (∀ (u : String) (env : ServerEnv),
      checkURLExists (env.urlExists ("https://twitter.com/" ++ u)) = false →
      ((serverSearchSocialMedia u env))[2]? =
        some ⟨"Twitter", "error", "Profile not found", none⟩) ∧
    (∀ (u : String) (env : ServerEnv),
      checkURLExists (env.urlExists ("https://twitter.com/" ++ u)) = true →
      ((serverSearchSocialMedia u env))[2]? =
        some ⟨"Twitter", "success", "Profile found",
          some ("https://twitter.com/" ++ u)⟩) := by
  refine ⟨?_, rfl, rfl, ?_, ?_⟩
  · intro s
    simp [checkURLExists]
  · intro u env h
    simp [serverSearchSocialMedia, socialURLPlatforms, urlCheckRecord, h]
  · intro u env h
    simp [serverSearchSocialMedia, socialURLPlatforms, urlCheckRecord, h]

/-- C6 counterexample: status codes 301 and 303 are not treated as
"exists", refuting the claimed 200/301/302/303 acceptance set. -/
theorem c6_url_exists_counterexample :
    checkURLExists (.response 301) = false ∧
    checkURLExists (.response 303) = false := by
  decide

/-- C6 witness: the characterization evaluated at concrete outcomes and a
concrete failing Twitter probe. -/
theorem c6_url_exists_witness :
    (checkURLExists (.response 302) = true ↔ ((302 : Nat) = 200 ∨ (302 : Nat) = 302)) ∧
    ((serverSearchSocialMedia "johndoe" envSrv0))[2]? =
      some ⟨"Twitter", "error", "Profile not found", none⟩ :=
  ⟨c6_url_exists.1 302,
   c6_url_exists.2.2.2.1 "johndoe" envSrv0 (by decide)⟩

/-- C7: the dispatch order is deterministic — the platform sequence of the
result list is a fixed constant, independent of every I/O outcome and random
draw, for both the frontend server's and the api's social dispatcher, so two
calls with the same query always return records in the same platform
order. -/
theorem c7_dispatch_order :
    (∀ (u : String) (env : ServerEnv),
      (serverSearchSocialMedia u env).map ProbeResult.platform =
        ["AI Profile Analysis", "GitHub", "Twitter", "Instagram", "LinkedIn", "Reddit",
         "YouTube", "TikTok", "Facebook", "🕸️ Dark Web Forums", "💀 Data Breach Scanner",
         "₿ Crypto Wallet Tracker", "🔐 Credential Leaks", "📱 Phone Intelligence",
         "📧 Email Pattern Analysis", "👤 Facial Recognition DB"]) ∧
    (∀ (u : String) (env : ApiEnv),
      (apiSearchSocialMedia u env).1.map ProbeResult.platform =
        ["GitHub", "Instagram", "LinkedIn", "YouTube", "Twitch"]) ∧
    (∀ (u : String) (env1 env2 : ServerEnv),
      (serverSearchSocialMedia u env1).map ProbeResult.platform =
        (serverSearchSocialMedia u env2).map ProbeResult.platform) ∧
    (∀ (u : String) (env1 env2 : ApiEnv),
      (apiSearchSocialMedia u env1).1.map ProbeResult.platform =
        (apiSearchSocialMedia u env2).1.map ProbeResult.platform) := by
  refine ⟨fun u env => rfl, fun u env => rfl, fun u env1 env2 => rfl, fun u env1 env2 => rfl⟩

/-- C8: the per-user search history never exceeds 50 entries — a single
save is bounded by 50, any sequence of saves starting from a bounded history
stays bounded, saving into a history of exactly 50 prepends the new entry
and evicts the oldest (last) entry leaving exactly 50, and the per-user map
update preserves the bound for every user. -/
theorem c8_history_cap :
    (∀ (h : List HistoryEntry) (id query typ ts : String) (rs : List ProbeResult),
      (saveSearchHistory h id query typ ts rs).length ≤ 50) ∧
    (∀ (saves : List SaveArgs) (h0 : List HistoryEntry),
      h0.length ≤ 50 → (runSaves h0 saves).length ≤ 50) ∧
    (∀ (h : List HistoryEntry) (id query typ ts : String) (rs : List ProbeResult),
      h.length = 50 →
      saveSearchHistory h id query typ ts rs =
        ⟨id, query, typ, rs.length, ts, rs.take 3⟩ :: h.dropLast ∧
      (saveSearchHistory h id query typ ts rs).length = 50) ∧
    (∀ (histories : String → List HistoryEntry) (userId id query typ ts : String)
        (rs : List ProbeResult),
      (∀ u, (histories u).length ≤ 50) →
      ∀ u, (saveSearchHistoryMap histories userId id query typ ts rs u).length ≤ 50) := by
  refine ⟨saveSearchHistory_length_le, ?_, ?_, ?_⟩
  · intro saves
    induction saves with
    | nil => intro h0 h; simpa [runSaves] using h
    | cons a rest ih =>
      intro h0 _
      exact ih _ (saveSearchHistory_length_le h0 a.id a.query a.typ a.timestamp a.results)
  · intro h id query typ ts rs h50
    unfold saveSearchHistory
    have hgt : 50 < ((⟨id, query, typ, rs.length, ts, rs.take 3⟩ : HistoryEntry) :: h).length := by
      simp [h50]
    rw [if_pos hgt]
    constructor
    · rw [List.take_cons (by omega), List.dropLast_eq_take, h50]
    · simp [List.length_take, h50]
  · intro histories userId id query typ ts rs hball u
    unfold saveSearchHistoryMap
    by_cases hu : u = userId
    · rw [if_pos hu]
      exact saveSearchHistory_length_le _ id query typ ts rs
    · rw [if_neg hu]
      exact hball u

/-- C8 witness: the cap and eviction evaluated at a history of exactly 50
entries and at a sequence of 60 saves from the empty history. -/
theorem c8_history_cap_witness :
    (List.replicate 50 entry0).length = 50 ∧
    saveSearchHistory (List.replicate 50 entry0) "id1" "q1" "email" "t1" [] =
      ⟨"id1", "q1", "email", 0, "t1", []⟩ :: (List.replicate 50 entry0).dropLast ∧
    (saveSearchHistory (List.replicate 50 entry0) "id1" "q1" "email" "t1" []).length = 50 ∧
    (runSaves [] (List.replicate 60 ⟨"i", "q", "t", "ts", []⟩)).length ≤ 50 :=
  ⟨by decide,
   (c8_history_cap.2.2.1 (List.replicate 50 entry0) "id1" "q1" "email" "t1" [] (by decide)).1,
   (c8_history_cap.2.2.1 (List.replicate 50 entry0) "id1" "q1" "email" "t1" [] (by decide)).2,
   c8_history_cap.2.1 (List.replicate 60 ⟨"i", "q", "t", "ts", []⟩) [] (by decide)⟩

theorem checkRateLimit_false_mem (st : SecurityState) (ip endpoint : String) (now : Nat)
    (h : (checkRateLimit st ip endpoint now).1 = false) :
    ip ∈ (checkRateLimit st ip endpoint now).2.ipBlacklist := by
  unfold checkRateLimit at h ⊢
  by_cases hc : rateLimitMax endpoint ≤
      ((st.rateLimitStore (ip ++ ":" ++ endpoint)).filter fun time => now - time < 60000).length
  · simp only [if_pos hc]
    exact List.mem_cons_self ip _
  · simp only [if_neg hc] at h
    exact absurd h (by simp)

/-- C9: once `checkRateLimit` returns `false` for an IP the IP is in the
blacklist; no middleware step ever removes a blacklisted IP; a blacklisted
IP's request is answered 403 (`Access denied`), not 429; hence after one
rate-limit trip every subsequent request from that IP in any request
sequence — regardless of elapsed time — is rejected with 403. -/
theorem c9_blacklist_permanent :
    (∀ (st : SecurityState) (ip endpoint : String) (now : Nat),
      (checkRateLimit st ip endpoint now).1 = false →
      ip ∈ (checkRateLimit st ip endpoint now).2.ipBlacklist) ∧
    (∀ (st : SecurityState) (r : MwRequest) (ip : String),
      ip ∈ st.ipBlacklist → ip ∈ (securityMiddleware st r).2.ipBlacklist) ∧
    (∀ (st : SecurityState) (r : MwRequest),
      r.ip ∈ st.ipBlacklist →
      (securityMiddleware st r).1 = .accessDenied ∧
        mwStatus (securityMiddleware st r).1 = 403) ∧
    (∀ (reqs : List MwRequest) (st : SecurityState) (ip : String),
      ip ∈ st.ipBlacklist →
      ∀ pr ∈ (runMiddleware st reqs).1, pr.1.ip = ip → pr.2 = .accessDenied) ∧
    (∀ (st : SecurityState) (r : MwRequest),
      isBlocked st r.ip r.userAgent = false →
      (checkRateLimit st r.ip (endpointClass r.path) r.now).1 = false →
      (securityMiddleware st r).1 = .rateLimited ∧
        r.ip ∈ (securityMiddleware st r).2.ipBlacklist) := by
  refine ⟨checkRateLimit_false_mem, fun st r ip h => securityMiddleware_blacklist_mono st r h,
    ?_, ?_, ?_⟩
  · intro st r h
    have hd := securityMiddleware_denied_of_mem st r h
    refine ⟨hd, ?_⟩
    rw [hd]
    rfl
  · intro reqs
    induction reqs with
    | nil =>
      intro st ip hmem pr hpr
      exact absurd hpr (List.not_mem_nil pr)
    | cons r rs ih =>
      intro st ip hmem pr hpr hip
      unfold runMiddleware at hpr
      rcases List.mem_cons.mp hpr with hh | ht
      · subst hh
        simp only at hip
        exact securityMiddleware_denied_of_mem st r (hip ▸ hmem)
      · exact ih (securityMiddleware st r).2 ip
          (securityMiddleware_blacklist_mono st r hmem) pr ht hip
  · intro st r hnb hrl
    have hnb2 : ¬(isBlocked st r.ip r.userAgent = true) := by simp [hnb]
    have hres : securityMiddleware st r =
        (.rateLimited, (checkRateLimit st r.ip (endpointClass r.path) r.now).2) := by
      unfold securityMiddleware
      rw [if_neg hnb2]
      simp [hrl]
    rw [hres]
    exact ⟨rfl, checkRateLimit_false_mem st r.ip (endpointClass r.path) r.now hrl⟩

/-- C9 witness: a state whose store holds ten recent requests for the search
endpoint trips the limit (429, IP blacklisted), and a later request from the
same IP long after the window elapsed is answered 403. -/
theorem c9_blacklist_permanent_witness :
    isBlocked stRL "1.2.3.4" "Mozilla/5.0" = false ∧
    ((securityMiddleware stRL reqSearch).1 = .rateLimited ∧
      "1.2.3.4" ∈ (securityMiddleware stRL reqSearch).2.ipBlacklist) ∧
    ((securityMiddleware stAfterRL reqLater).1 = .accessDenied ∧
      mwStatus (securityMiddleware stAfterRL reqLater).1 = 403) :=
  ⟨by decide,
   c9_blacklist_permanent.2.2.2.2 stRL reqSearch (by decide) (by decide),
   c9_blacklist_permanent.2.2.1 stAfterRL reqLater (by decide)⟩

end InfoHub
